import Mathlib

set_option maxRecDepth 4000

/-!
Shallow embedding of the slide-deck playback controller of `src/app/page.tsx`
(the `Presentation` component).

The component state is the four `useState` hooks plus the `<audio>` element it
owns (its `src`, whether it is currently playing) and the set of `setTimeout`
fallback timers that are pending (the code never clears them: the
`clearTimeout` closure is returned to `play().catch`, not to React, so every
armed timer stays pending until it fires).

Events are the discrete UI-loop callbacks: a `keydown`, a button click, the
audio element's `ended` event, or a pending timer firing.  After each event
the React effects whose dependency arrays changed re-run, in declaration
order: the audio-load effect (deps `[currentSlide]`), then the play/pause
effect (deps `[isPlaying, currentSlide]`).  `audioOk i` says whether
`/audio/slide-<id>.mp3` for slide `i` exists and is playable, i.e. whether
`audio.play()` resolves rather than rejects.
-/

/-- Data model of one slide, from `presentation.json` (spec section 3). -/
structure Slide where
  id : String
  duration : Nat
  speakerNotes : Option String := none
  narration : Option String := none
  deriving DecidableEq

/-- A pending `setTimeout` fallback: the slide index captured by the closure
and the delay `duration * 1000` in milliseconds. -/
structure Timer where
  slideIdx : Nat
  delayMs : Nat
  deriving DecidableEq

/-- The `Presentation` component state: the four `useState` hooks, the audio
element (`src`, playing-or-paused), and the pending fallback timers. -/
structure PlayerState where
  currentSlide : Nat
  isPlaying : Bool
  showSpeakerNotes : Bool
  showNarration : Bool
  audioSrc : String
  audioPlaying : Bool
  pendingTimers : List Timer
  deriving DecidableEq

/-- Slide lookup `presentationData.slides[i]`. -/
def slideAt (slides : List Slide) (i : Nat) : Slide :=
  slides.getD i { id := "", duration := 0 }

/-- The asset-path convention: backtick-template `/audio/slide-<id>.mp3`. -/
def audioPath (sl : Slide) : String :=
  "/audio/slide-" ++ sl.id ++ ".mp3"

/-- The audio-load effect (page.tsx lines 20-28), deps `[currentSlide]`:
`pause()`, set `src`, `load()` — and nothing else (no `play()`). -/
def loadAudioEffect (slides : List Slide) (s : PlayerState) : PlayerState :=
  { s with audioPlaying := false
         , audioSrc := audioPath (slideAt slides s.currentSlide) }

/-- The play/pause effect (page.tsx lines 73-90), deps `[isPlaying,
currentSlide]`.  When playing it calls `play()`: on success the audio plays;
on rejection it arms a `setTimeout` of `duration * 1000` advancing to
`currentSlide + 1`, but only when `currentSlide < slides.length - 1`.
When not playing it calls `pause()`.  The `return () => clearTimeout(timer)`
in the source is returned to the promise `catch`, not to React, so the armed
timer is simply appended and never cancelled. -/
def playPauseEffect (slides : List Slide) (audioOk : Nat → Bool) (s : PlayerState) : PlayerState :=
  if s.isPlaying then
    if audioOk s.currentSlide then
      { s with audioPlaying := true }
    else if s.currentSlide < slides.length - 1 then
      { s with pendingTimers := s.pendingTimers ++
          [{ slideIdx := s.currentSlide
           , delayMs := (slideAt slides s.currentSlide).duration * 1000 }] }
    else s
  else { s with audioPlaying := false }

/-- `handleAudioEnd` (page.tsx lines 55-63), the `'ended'` listener: when
`isPlaying`, advance unless at the last slide, where it stops playback. -/
def handleAudioEnd (slides : List Slide) (s : PlayerState) : PlayerState :=
  if s.isPlaying then
    if s.currentSlide < slides.length - 1 then
      { s with currentSlide := s.currentSlide + 1 }
    else
      { s with isPlaying := false }
  else s

/-- `handleKeyDown` (page.tsx lines 31-46): the guarded `if`/`else if` chain
on `e.key`. -/
def handleKeyDown (slides : List Slide) (k : String) (s : PlayerState) : PlayerState :=
  if k = "ArrowRight" ∧ s.currentSlide < slides.length - 1 then
    { s with currentSlide := s.currentSlide + 1 }
  else if k = "ArrowLeft" ∧ s.currentSlide > 0 then
    { s with currentSlide := s.currentSlide - 1 }
  else if k = " " then
    { s with isPlaying := !s.isPlaying }
  else if k = "n" ∨ k = "N" then
    { s with showSpeakerNotes := !s.showSpeakerNotes }
  else if k = "s" ∨ k = "S" then
    { s with showNarration := !s.showNarration }
  else s

/-- React re-runs, in declaration order, every effect one of whose
dependencies changed between render `prev` and render `next`: the audio-load
effect when `currentSlide` changed, then the play/pause effect when
`currentSlide` or `isPlaying` changed. -/
def runEffects (slides : List Slide) (audioOk : Nat → Bool) (prev next : PlayerState) : PlayerState :=
  if next.currentSlide ≠ prev.currentSlide ∨ next.isPlaying ≠ prev.isPlaying then
    playPauseEffect slides audioOk
      (if next.currentSlide ≠ prev.currentSlide then loadAudioEffect slides next else next)
  else next

/-- Remove one occurrence of `a` (a fired `setTimeout` leaves the pending
set). -/
def removeFirst {α : Type} [DecidableEq α] : List α → α → List α
  | [], _ => []
  | x :: xs, a => if x = a then xs else x :: removeFirst xs a

/-- The discrete events the UI loop can deliver to the component. -/
inductive Event where
  | key (k : String)
  | prevClick
  | playClick
  | nextClick
  | notesClick
  | scriptClick
  | audioEnded
  | timerFire (t : Timer)
  deriving DecidableEq

/-- Whether an event can occur in state `s`: user events always can; `ended`
only while the audio element is playing; a timer only while it is pending. -/
def enabled (e : Event) (s : PlayerState) : Bool :=
  match e with
  | Event.audioEnded => s.audioPlaying
  | Event.timerFire t => decide (t ∈ s.pendingTimers)
  | _ => true

/-- One event: run the source handler for it, then the effects whose
dependencies changed.  Buttons are page.tsx lines 133-161 (`Math.max`/
`Math.min` clamping); a firing timer runs the closure
`setCurrentSlide(currentSlide + 1)` with the captured index. -/
def applyEvent (slides : List Slide) (audioOk : Nat → Bool) (e : Event) (s : PlayerState) : PlayerState :=
  match e with
  | Event.key k => runEffects slides audioOk s (handleKeyDown slides k s)
  | Event.prevClick =>
      runEffects slides audioOk s { s with currentSlide := max 0 (s.currentSlide - 1) }
  | Event.playClick =>
      runEffects slides audioOk s { s with isPlaying := !s.isPlaying }
  | Event.nextClick =>
      runEffects slides audioOk s
        { s with currentSlide := min (slides.length - 1) (s.currentSlide + 1) }
  | Event.notesClick =>
      runEffects slides audioOk s { s with showSpeakerNotes := !s.showSpeakerNotes }
  | Event.scriptClick =>
      runEffects slides audioOk s { s with showNarration := !s.showNarration }
  | Event.audioEnded =>
      if s.audioPlaying then
        runEffects slides audioOk s (handleAudioEnd slides { s with audioPlaying := false })
      else s
  | Event.timerFire t =>
      if t ∈ s.pendingTimers then
        runEffects slides audioOk s
          { s with pendingTimers := removeFirst s.pendingTimers t
                 , currentSlide := t.slideIdx + 1 }
      else s

/-- State at first render: the `useState` initializers
(`currentSlide = 0`, all flags `false`), audio element fresh. -/
def mountState : PlayerState :=
  { currentSlide := 0, isPlaying := false, showSpeakerNotes := false
  , showNarration := false, audioSrc := "", audioPlaying := false
  , pendingTimers := [] }

/-- State after mount: React runs all effects once after the first render. -/
def initState (slides : List Slide) (audioOk : Nat → Bool) : PlayerState :=
  playPauseEffect slides audioOk (loadAudioEffect slides mountState)

/-- States the component can be in: the mounted state, closed under enabled
events. -/
inductive Reachable (slides : List Slide) (audioOk : Nat → Bool) : PlayerState → Prop where
  | init : Reachable slides audioOk (initState slides audioOk)
  | step {s : PlayerState} {e : Event} (hr : Reachable slides audioOk s)
      (he : enabled e s = true) : Reachable slides audioOk (applyEvent slides audioOk e s)

/-- The state invariant: the index is in range, every pending fallback timer
was armed for an audio-less non-final slide, and the audio element plays only
the current slide's existing audio. -/
def PlayerInv (slides : List Slide) (audioOk : Nat → Bool) (s : PlayerState) : Prop :=
  s.currentSlide < slides.length ∧
  (∀ t ∈ s.pendingTimers, audioOk t.slideIdx = false ∧ t.slideIdx + 1 < slides.length) ∧
  (s.audioPlaying = true → audioOk s.currentSlide = true)

/-- A three-slide deck (the spec's scenario: durations `[5,5,5]`). -/
def demoSlides : List Slide :=
  [ { id := "a", duration := 5 }
  , { id := "b", duration := 5 }
  , { id := "c", duration := 5 } ]

/-- No slide has an audio file (`play()` always rejects). -/
def noAudio : Nat → Bool := fun _ => false

/-- Only slide 1 has an audio file. -/
def someAudio : Nat → Bool := fun i => i == 1

/-! ### Basic facts about the effects -/

@[simp] theorem loadAudioEffect_currentSlide (slides : List Slide) (s : PlayerState) :
    (loadAudioEffect slides s).currentSlide = s.currentSlide := rfl

@[simp] theorem loadAudioEffect_isPlaying (slides : List Slide) (s : PlayerState) :
    (loadAudioEffect slides s).isPlaying = s.isPlaying := rfl

@[simp] theorem loadAudioEffect_pendingTimers (slides : List Slide) (s : PlayerState) :
    (loadAudioEffect slides s).pendingTimers = s.pendingTimers := rfl

@[simp] theorem loadAudioEffect_audioPlaying (slides : List Slide) (s : PlayerState) :
    (loadAudioEffect slides s).audioPlaying = false := rfl

@[simp] theorem loadAudioEffect_audioSrc (slides : List Slide) (s : PlayerState) :
    (loadAudioEffect slides s).audioSrc = audioPath (slideAt slides s.currentSlide) := rfl

@[simp] theorem playPauseEffect_currentSlide (slides : List Slide) (audioOk : Nat → Bool)
    (s : PlayerState) : (playPauseEffect slides audioOk s).currentSlide = s.currentSlide := by
  unfold playPauseEffect
  split <;> [skip; rfl]
  split <;> [rfl; skip]
  split <;> rfl

@[simp] theorem playPauseEffect_isPlaying (slides : List Slide) (audioOk : Nat → Bool)
    (s : PlayerState) : (playPauseEffect slides audioOk s).isPlaying = s.isPlaying := by
  unfold playPauseEffect
  split <;> [skip; rfl]
  split <;> [rfl; skip]
  split <;> rfl

@[simp] theorem playPauseEffect_audioSrc (slides : List Slide) (audioOk : Nat → Bool)
    (s : PlayerState) : (playPauseEffect slides audioOk s).audioSrc = s.audioSrc := by
  unfold playPauseEffect
  split <;> [skip; rfl]
  split <;> [rfl; skip]
  split <;> rfl

theorem runEffects_currentSlide (slides : List Slide) (audioOk : Nat → Bool)
    (prev next : PlayerState) :
    (runEffects slides audioOk prev next).currentSlide = next.currentSlide := by
  unfold runEffects
  split
  · split <;> simp
  · rfl

theorem runEffects_isPlaying (slides : List Slide) (audioOk : Nat → Bool)
    (prev next : PlayerState) :
    (runEffects slides audioOk prev next).isPlaying = next.isPlaying := by
  unfold runEffects
  split
  · split <;> simp
  · rfl

theorem mem_removeFirst {α : Type} [DecidableEq α] {l : List α} {a x : α}
    (h : x ∈ removeFirst l a) : x ∈ l := by
  induction l with
  | nil => simp [removeFirst] at h
  | cons y ys ih =>
    by_cases hy : y = a
    · rw [removeFirst, if_pos hy] at h
      exact List.mem_cons_of_mem _ h
    · rw [removeFirst, if_neg hy] at h
      rcases List.mem_cons.mp h with h | h
      · exact h ▸ List.mem_cons_self _ _
      · exact List.mem_cons_of_mem _ (ih h)

/-! ### The invariant is preserved -/

theorem handleKeyDown_pendingTimers (slides : List Slide) (k : String) (s : PlayerState) :
    (handleKeyDown slides k s).pendingTimers = s.pendingTimers := by
  unfold handleKeyDown
  split
  · rfl
  split
  · rfl
  split
  · rfl
  split
  · rfl
  split
  · rfl
  · rfl

theorem handleKeyDown_audioPlaying (slides : List Slide) (k : String) (s : PlayerState) :
    (handleKeyDown slides k s).audioPlaying = s.audioPlaying := by
  unfold handleKeyDown
  split
  · rfl
  split
  · rfl
  split
  · rfl
  split
  · rfl
  split
  · rfl
  · rfl

theorem handleKeyDown_currentSlide_lt {slides : List Slide} {s : PlayerState} (k : String)
    (h : s.currentSlide < slides.length) :
    (handleKeyDown slides k s).currentSlide < slides.length := by
  unfold handleKeyDown
  split
  · rename_i hcond
    have := hcond.2
    show s.currentSlide + 1 < slides.length
    omega
  split
  · show s.currentSlide - 1 < slides.length
    omega
  split
  · exact h
  split
  · exact h
  split
  · exact h
  · exact h

theorem handleAudioEnd_pendingTimers (slides : List Slide) (s : PlayerState) :
    (handleAudioEnd slides s).pendingTimers = s.pendingTimers := by
  unfold handleAudioEnd
  split
  · split
    · rfl
    · rfl
  · rfl

theorem handleAudioEnd_audioPlaying (slides : List Slide) (s : PlayerState) :
    (handleAudioEnd slides s).audioPlaying = s.audioPlaying := by
  unfold handleAudioEnd
  split
  · split
    · rfl
    · rfl
  · rfl

theorem handleAudioEnd_currentSlide_lt {slides : List Slide} {s : PlayerState}
    (h : s.currentSlide < slides.length) :
    (handleAudioEnd slides s).currentSlide < slides.length := by
  unfold handleAudioEnd
  split
  · split
    · rename_i hlt
      show s.currentSlide + 1 < slides.length
      omega
    · exact h
  · exact h

/-! ### The invariant is preserved -/

theorem playerInv_playPauseEffect {slides : List Slide} {audioOk : Nat → Bool}
    {s : PlayerState} (h : PlayerInv slides audioOk s) :
    PlayerInv slides audioOk (playPauseEffect slides audioOk s) := by
  obtain ⟨h1, h2, h3⟩ := h
  unfold playPauseEffect
  split
  · split
    · rename_i hok
      exact ⟨h1, h2, fun _ => hok⟩
    · rename_i hok
      split
      · rename_i hlt
        refine ⟨h1, ?_, h3⟩
        intro t ht
        rcases List.mem_append.mp ht with ht | ht
        · exact h2 t ht
        · rcases List.mem_singleton.mp ht with rfl
          constructor
          · show audioOk s.currentSlide = false
            simpa using hok
          · show s.currentSlide + 1 < slides.length
            omega
      · exact ⟨h1, h2, h3⟩
  · exact ⟨h1, h2, by simp⟩

theorem playerInv_runEffects {slides : List Slide} {audioOk : Nat → Bool}
    {prev next : PlayerState}
    (h1 : next.currentSlide < slides.length)
    (h2 : ∀ t ∈ next.pendingTimers, audioOk t.slideIdx = false ∧ t.slideIdx + 1 < slides.length)
    (h3 : next.currentSlide = prev.currentSlide → next.audioPlaying = true →
      audioOk next.currentSlide = true) :
    PlayerInv slides audioOk (runEffects slides audioOk prev next) := by
  unfold runEffects
  by_cases hc : next.currentSlide = prev.currentSlide
  · by_cases hp : next.isPlaying = prev.isPlaying
    · rw [if_neg (by simp [hc, hp])]
      exact ⟨h1, h2, h3 hc⟩
    · rw [if_pos (Or.inr hp), if_neg (by simp [hc])]
      exact playerInv_playPauseEffect ⟨h1, h2, h3 hc⟩
  · rw [if_pos (Or.inl hc), if_pos hc]
    exact playerInv_playPauseEffect ⟨by simpa using h1, by simpa using h2, by simp⟩

/-- Common case: the event handler left the pending timers untouched and did
not start audio by itself. -/
theorem playerInv_runEffects_same {slides : List Slide} {audioOk : Nat → Bool}
    {s s1 : PlayerState} (h : PlayerInv slides audioOk s)
    (hT : s1.pendingTimers = s.pendingTimers)
    (hA : s1.audioPlaying = true → s.audioPlaying = true)
    (hC : s1.currentSlide < slides.length) :
    PlayerInv slides audioOk (runEffects slides audioOk s s1) := by
  refine playerInv_runEffects hC (by rw [hT]; exact h.2.1) ?_
  intro hc hap
  rw [hc]
  exact h.2.2 (hA hap)

theorem playerInv_applyEvent {slides : List Slide} {audioOk : Nat → Bool}
    {s : PlayerState} (e : Event) (h : PlayerInv slides audioOk s) :
    PlayerInv slides audioOk (applyEvent slides audioOk e s) := by
  cases e with
  | key k =>
    exact playerInv_runEffects_same h (handleKeyDown_pendingTimers slides k s)
      (fun hap => by rw [← handleKeyDown_audioPlaying slides k s]; exact hap)
      (handleKeyDown_currentSlide_lt k h.1)
  | prevClick =>
    refine playerInv_runEffects_same h rfl (fun hap => hap) ?_
    show max 0 (s.currentSlide - 1) < slides.length
    have := h.1
    omega
  | playClick =>
    exact playerInv_runEffects_same h rfl (fun hap => hap) h.1
  | nextClick =>
    refine playerInv_runEffects_same h rfl (fun hap => hap) ?_
    show min (slides.length - 1) (s.currentSlide + 1) < slides.length
    have := h.1
    omega
  | notesClick =>
    exact playerInv_runEffects_same h rfl (fun hap => hap) h.1
  | scriptClick =>
    exact playerInv_runEffects_same h rfl (fun hap => hap) h.1
  | audioEnded =>
    show PlayerInv slides audioOk
      (if s.audioPlaying = true then
        runEffects slides audioOk s (handleAudioEnd slides { s with audioPlaying := false })
      else s)
    by_cases hap : s.audioPlaying = true
    · rw [if_pos hap]
      refine playerInv_runEffects_same h (handleAudioEnd_pendingTimers _ _) ?_ ?_
      · intro hap2
        rw [handleAudioEnd_audioPlaying] at hap2
        simp at hap2
      · exact handleAudioEnd_currentSlide_lt h.1
    · rw [if_neg hap]
      exact h
  | timerFire t =>
    show PlayerInv slides audioOk
      (if t ∈ s.pendingTimers then
        runEffects slides audioOk s
          { s with pendingTimers := removeFirst s.pendingTimers t
                 , currentSlide := t.slideIdx + 1 }
      else s)
    by_cases hmem : t ∈ s.pendingTimers
    · rw [if_pos hmem]
      refine playerInv_runEffects ?_ ?_ ?_
      · show t.slideIdx + 1 < slides.length
        exact (h.2.1 t hmem).2
      · intro u hu
        exact h.2.1 u (mem_removeFirst hu)
      · intro hc hap
        show audioOk _ = true
        rw [hc]
        exact h.2.2 hap
    · rw [if_neg hmem]
      exact h

theorem playerInv_initState {slides : List Slide} {audioOk : Nat → Bool}
    (hN : 0 < slides.length) : PlayerInv slides audioOk (initState slides audioOk) := by
  unfold initState
  refine playerInv_playPauseEffect ⟨?_, ?_, ?_⟩
  · simpa [mountState] using hN
  · simp [mountState]
  · simp

theorem reachable_playerInv {slides : List Slide} {audioOk : Nat → Bool} {s : PlayerState}
    (hN : 0 < slides.length) (hr : Reachable slides audioOk s) :
    PlayerInv slides audioOk s := by
  induction hr with
  | init => exact playerInv_initState hN
  | step _ _ ih => exact playerInv_applyEvent _ ih

/-! ### Claim theorems -/

/-- C4: the `'ended'` handler: when `isPlaying` is false it changes no state;
when `isPlaying` is true it advances `currentSlide` by one (`next()`) unless
the current slide is the last, in which case it only sets `isPlaying` to
false. -/
theorem c4_handleAudioEnd (slides : List Slide) (s : PlayerState) :
    (s.isPlaying = false → handleAudioEnd slides s = s) ∧
    (s.isPlaying = true → s.currentSlide < slides.length - 1 →
      handleAudioEnd slides s = { s with currentSlide := s.currentSlide + 1 }) ∧
    (s.isPlaying = true → s.currentSlide = slides.length - 1 →
      handleAudioEnd slides s = { s with isPlaying := false }) := by
  refine ⟨?_, ?_, ?_⟩
  · intro hp
    simp [handleAudioEnd, hp]
  · intro hp hlt
    simp [handleAudioEnd, hp, hlt]
  · intro hp hlast
    have hnlt : ¬ s.currentSlide < slides.length - 1 := by omega
    simp [handleAudioEnd, hp, hnlt]

/-- States used to instantiate `c4_handleAudioEnd`. -/
def sIdle : PlayerState := mountState

/-- Playing at slide 0. -/
def sPlay0 : PlayerState := { mountState with isPlaying := true }

/-- Playing at the last demo slide. -/
def sPlay2 : PlayerState := { mountState with isPlaying := true, currentSlide := 2 }

theorem c4_witness :
    handleAudioEnd demoSlides sIdle = sIdle ∧
    handleAudioEnd demoSlides sPlay0 = { sPlay0 with currentSlide := 1 } ∧
    handleAudioEnd demoSlides sPlay2 = { sPlay2 with isPlaying := false } :=
  ⟨(c4_handleAudioEnd demoSlides sIdle).1 rfl,
   (c4_handleAudioEnd demoSlides sPlay0).2.1 rfl (by decide),
   (c4_handleAudioEnd demoSlides sPlay2).2.2 rfl (by decide)⟩

/-- C6: navigation clamps into `[0, N-1]`: for any in-range state, both the
Previous/Next buttons (`Math.max`/`Math.min`) and the ArrowLeft/ArrowRight
key bindings produce an in-range index, and at the bounds (`next` at the last
slide, `previous` at slide 0) the whole event — effects included — is a
no-op on the state. -/
theorem c6_navigation_clamps (slides : List Slide) (audioOk : Nat → Bool) (s : PlayerState)
    (hN : 0 < slides.length) (hc : s.currentSlide < slides.length) :
    (applyEvent slides audioOk Event.nextClick s).currentSlide < slides.length ∧
    (applyEvent slides audioOk Event.prevClick s).currentSlide < slides.length ∧
    (applyEvent slides audioOk (Event.key "ArrowRight") s).currentSlide < slides.length ∧
    (applyEvent slides audioOk (Event.key "ArrowLeft") s).currentSlide < slides.length ∧
    (s.currentSlide = slides.length - 1 →
      applyEvent slides audioOk Event.nextClick s = s ∧
      applyEvent slides audioOk (Event.key "ArrowRight") s = s) ∧
    (s.currentSlide = 0 →
      applyEvent slides audioOk Event.prevClick s = s ∧
      applyEvent slides audioOk (Event.key "ArrowLeft") s = s) := by
  refine ⟨?_, ?_, ?_, ?_, ?_, ?_⟩
  · have e1 : (applyEvent slides audioOk Event.nextClick s).currentSlide
        = min (slides.length - 1) (s.currentSlide + 1) := runEffects_currentSlide _ _ _ _
    rw [e1]
    omega
  · have e1 : (applyEvent slides audioOk Event.prevClick s).currentSlide
        = max 0 (s.currentSlide - 1) := runEffects_currentSlide _ _ _ _
    rw [e1]
    omega
  · have e1 : (applyEvent slides audioOk (Event.key "ArrowRight") s).currentSlide
        = (handleKeyDown slides "ArrowRight" s).currentSlide := runEffects_currentSlide _ _ _ _
    rw [e1]
    exact handleKeyDown_currentSlide_lt _ hc
  · have e1 : (applyEvent slides audioOk (Event.key "ArrowLeft") s).currentSlide
        = (handleKeyDown slides "ArrowLeft" s).currentSlide := runEffects_currentSlide _ _ _ _
    rw [e1]
    exact handleKeyDown_currentSlide_lt _ hc
  · intro hlast
    constructor
    · have hmin : min (slides.length - 1) (s.currentSlide + 1) = s.currentSlide := by omega
      simp [applyEvent, runEffects, hmin]
    · have hng : ¬ s.currentSlide < slides.length - 1 := by omega
      simp [applyEvent, handleKeyDown, runEffects, hng]
  · intro h0
    constructor
    · have hmax : s.currentSlide - 1 = s.currentSlide := by omega
      simp [applyEvent, runEffects, hmax]
    · simp [applyEvent, handleKeyDown, runEffects, h0]

theorem c6_witness :
    ((applyEvent demoSlides noAudio Event.nextClick sPlay2 = sPlay2 ∧
      applyEvent demoSlides noAudio (Event.key "ArrowRight") sPlay2 = sPlay2) ∧
     (applyEvent demoSlides noAudio Event.prevClick mountState = mountState ∧
      applyEvent demoSlides noAudio (Event.key "ArrowLeft") mountState = mountState)) ∧
    (applyEvent demoSlides noAudio Event.nextClick mountState).currentSlide
      < demoSlides.length :=
  ⟨⟨(c6_navigation_clamps demoSlides noAudio sPlay2 (by decide) (by decide)).2.2.2.2.1
      (by decide),
    (c6_navigation_clamps demoSlides noAudio mountState (by decide) (by decide)).2.2.2.2.2
      (by decide)⟩,
   (c6_navigation_clamps demoSlides noAudio mountState (by decide) (by decide)).1⟩

/-- C9: the notes/script toggles — the Show Notes / Show Script buttons and
the `n`/`s` keys — flip exactly their own overlay flag: the result equals the
input state with only that flag negated (`currentSlide`, `isPlaying` and the
other flag untouched), in every state, playing or not. -/
theorem c9_overlay_toggles_only_flag (slides : List Slide) (audioOk : Nat → Bool)
    (s : PlayerState) :
    applyEvent slides audioOk Event.notesClick s
      = { s with showSpeakerNotes := !s.showSpeakerNotes } ∧
    applyEvent slides audioOk Event.scriptClick s
      = { s with showNarration := !s.showNarration } ∧
    applyEvent slides audioOk (Event.key "n") s
      = { s with showSpeakerNotes := !s.showSpeakerNotes } ∧
    applyEvent slides audioOk (Event.key "s") s
      = { s with showNarration := !s.showNarration } := by
  refine ⟨?_, ?_, ?_, ?_⟩ <;> simp [applyEvent, handleKeyDown, runEffects]

/-- C10: the overlay key bindings are case-insensitive — `"N"` behaves as
`"n"` and `"S"` as `"s"`, toggling their overlay flag — while the arrow
bindings match only the exact `"ArrowRight"`/`"ArrowLeft"` strings: other
casings fall through every branch and leave the state unchanged. -/
theorem c10_overlay_keys_case_insensitive (slides : List Slide) (audioOk : Nat → Bool)
    (s : PlayerState) :
    applyEvent slides audioOk (Event.key "N") s = applyEvent slides audioOk (Event.key "n") s ∧
    applyEvent slides audioOk (Event.key "S") s = applyEvent slides audioOk (Event.key "s") s ∧
    (applyEvent slides audioOk (Event.key "n") s).showSpeakerNotes = !s.showSpeakerNotes ∧
    (applyEvent slides audioOk (Event.key "s") s).showNarration = !s.showNarration ∧
    applyEvent slides audioOk (Event.key "arrowright") s = s ∧
    applyEvent slides audioOk (Event.key "arrowleft") s = s ∧
    applyEvent slides audioOk (Event.key "ARROWRIGHT") s = s := by
  refine ⟨?_, ?_, ?_, ?_, ?_, ?_, ?_⟩ <;> simp [applyEvent, handleKeyDown, runEffects]

/-- C7: for a non-empty deck, `0 <= currentIndex < len(slides)` (the lower
bound is by the `Nat` index) holds at mount and after any sequence of
enabled events — keys, buttons, the `'ended'` handler, and every fallback
timer firing, stale ones included. -/
theorem c7_index_invariant {slides : List Slide} {audioOk : Nat → Bool} {s : PlayerState}
    (hN : 0 < slides.length) (hr : Reachable slides audioOk s) :
    s.currentSlide < slides.length :=
  (reachable_playerInv hN hr).1

theorem c7_witness :
    0 < demoSlides.length ∧
    (initState demoSlides noAudio).currentSlide < demoSlides.length :=
  ⟨by decide, c7_index_invariant (by decide) Reachable.init⟩

/-- C1: in every reachable state, the `'ended'` event and a pending fallback
timer never govern the same slide: a timer is armed only when `play()`
rejected (no audio for that slide) while `'ended'` can fire only when the
current slide's audio actually plays — so at most one of the two advancement
paths can fire `next()` for a given slide. -/
theorem c1_advancement_exclusive {slides : List Slide} {audioOk : Nat → Bool}
    {s : PlayerState} (hN : 0 < slides.length) (hr : Reachable slides audioOk s)
    (hEnd : enabled Event.audioEnded s = true) :
    ∀ t : Timer, enabled (Event.timerFire t) s = true → t.slideIdx ≠ s.currentSlide := by
  intro t ht heq
  have hinv := reachable_playerInv hN hr
  have hap : s.audioPlaying = true := hEnd
  have hmem : t ∈ s.pendingTimers := of_decide_eq_true ht
  have h1 := (hinv.2.1 t hmem).1
  have h2 := hinv.2.2 hap
  rw [heq] at h1
  rw [h1] at h2
  exact Bool.false_ne_true h2

/-- Playback started at slide 0 (no audio there, so a fallback timer is
pending), then ArrowRight to slide 1, whose audio plays. -/
def c1State : PlayerState :=
  applyEvent demoSlides someAudio (Event.key "ArrowRight")
    (applyEvent demoSlides someAudio (Event.key " ") (initState demoSlides someAudio))

theorem c1_witness :
    enabled Event.audioEnded c1State = true ∧
    enabled (Event.timerFire ⟨0, 5000⟩) c1State = true ∧
    (Timer.mk 0 5000).slideIdx ≠ c1State.currentSlide :=
  ⟨by decide, by decide,
   c1_advancement_exclusive (by decide)
     (Reachable.step (Reachable.step Reachable.init (by decide)) (by decide))
     (by decide) ⟨0, 5000⟩ (by decide)⟩

/-- When the rendered `currentSlide` changed, the audio-load effect ran: the
element's `src` is the new slide's asset path, and any audio playing
afterwards was started by the play/pause effect (playing state, audio
present), not by the load. -/
theorem runEffects_changed {slides : List Slide} {audioOk : Nat → Bool}
    {prev next : PlayerState} (hc : next.currentSlide ≠ prev.currentSlide) :
    (runEffects slides audioOk prev next).audioSrc
      = audioPath (slideAt slides next.currentSlide) ∧
    ((runEffects slides audioOk prev next).audioPlaying = true →
      next.isPlaying = true ∧ audioOk next.currentSlide = true) := by
  unfold runEffects
  rw [if_pos (Or.inl hc), if_pos hc]
  constructor
  · rw [playPauseEffect_audioSrc]
    simp
  · intro hap
    unfold playPauseEffect at hap
    split at hap
    · rename_i hpl
      split at hap
      · rename_i hok
        exact ⟨by simpa using hpl, by simpa using hok⟩
      · split at hap
        · simp at hap
        · simp at hap
    · simp at hap

/-- Bridge from a full event to `runEffects_changed`. -/
theorem c8_aux (slides : List Slide) (audioOk : Nat → Bool) (s next r : PlayerState)
    (hr : r = runEffects slides audioOk s next)
    (hchange : r.currentSlide ≠ s.currentSlide) :
    r.audioSrc = audioPath (slideAt slides r.currentSlide) ∧
    (r.audioPlaying = true → r.isPlaying = true ∧ audioOk r.currentSlide = true) := by
  subst hr
  rw [runEffects_currentSlide] at hchange
  obtain ⟨ha, hb⟩ := @runEffects_changed slides audioOk s next hchange
  constructor
  · rw [runEffects_currentSlide]
    exact ha
  · intro hap
    obtain ⟨hp, hok⟩ := hb hap
    refine ⟨(runEffects_isPlaying _ _ _ _).trans hp, ?_⟩
    rw [runEffects_currentSlide]
    exact hok

/-- C8: whenever an event changes `currentSlide`, the audio element ends up
with `src = /audio/slide-<id>.mp3` for the new slide; the load effect itself
pauses the in-flight audio and never starts playback (last conjunct), so any
audio playing after the switch is the new slide's, started by the play/pause
effect only while `isPlaying`. -/
theorem c8_slide_change_loads_audio (slides : List Slide) (audioOk : Nat → Bool)
    (e : Event) (s : PlayerState)
    (hchange : (applyEvent slides audioOk e s).currentSlide ≠ s.currentSlide) :
    (applyEvent slides audioOk e s).audioSrc
      = audioPath (slideAt slides (applyEvent slides audioOk e s).currentSlide) ∧
    ((applyEvent slides audioOk e s).audioPlaying = true →
      (applyEvent slides audioOk e s).isPlaying = true ∧
      audioOk (applyEvent slides audioOk e s).currentSlide = true) ∧
    (∀ u : PlayerState, (loadAudioEffect slides u).audioPlaying = false ∧
      (loadAudioEffect slides u).audioSrc = audioPath (slideAt slides u.currentSlide)) := by
  cases e with
  | key k =>
    obtain ⟨ha, hb⟩ := c8_aux slides audioOk s (handleKeyDown slides k s) _ rfl hchange
    exact ⟨ha, hb, fun u => ⟨rfl, rfl⟩⟩
  | prevClick =>
    obtain ⟨ha, hb⟩ := c8_aux slides audioOk s _ _ rfl hchange
    exact ⟨ha, hb, fun u => ⟨rfl, rfl⟩⟩
  | playClick =>
    obtain ⟨ha, hb⟩ := c8_aux slides audioOk s _ _ rfl hchange
    exact ⟨ha, hb, fun u => ⟨rfl, rfl⟩⟩
  | nextClick =>
    obtain ⟨ha, hb⟩ := c8_aux slides audioOk s _ _ rfl hchange
    exact ⟨ha, hb, fun u => ⟨rfl, rfl⟩⟩
  | notesClick =>
    obtain ⟨ha, hb⟩ := c8_aux slides audioOk s _ _ rfl hchange
    exact ⟨ha, hb, fun u => ⟨rfl, rfl⟩⟩
  | scriptClick =>
    obtain ⟨ha, hb⟩ := c8_aux slides audioOk s _ _ rfl hchange
    exact ⟨ha, hb, fun u => ⟨rfl, rfl⟩⟩
  | audioEnded =>
    by_cases hap : s.audioPlaying = true
    · have heq : applyEvent slides audioOk Event.audioEnded s
          = runEffects slides audioOk s
              (handleAudioEnd slides { s with audioPlaying := false }) := by
        show (if s.audioPlaying = true then _ else _) = _
        rw [if_pos hap]
      obtain ⟨ha, hb⟩ := c8_aux slides audioOk s _ _ heq hchange
      exact ⟨ha, hb, fun u => ⟨rfl, rfl⟩⟩
    · have heq : applyEvent slides audioOk Event.audioEnded s = s := by
        show (if s.audioPlaying = true then _ else _) = s
        rw [if_neg hap]
      rw [heq] at hchange
      exact absurd rfl hchange
  | timerFire t =>
    by_cases hmem : t ∈ s.pendingTimers
    · have heq : applyEvent slides audioOk (Event.timerFire t) s
          = runEffects slides audioOk s
              { s with pendingTimers := removeFirst s.pendingTimers t
                     , currentSlide := t.slideIdx + 1 } := by
        show (if t ∈ s.pendingTimers then _ else _) = _
        rw [if_pos hmem]
      obtain ⟨ha, hb⟩ := c8_aux slides audioOk s _ _ heq hchange
      exact ⟨ha, hb, fun u => ⟨rfl, rfl⟩⟩
    · have heq : applyEvent slides audioOk (Event.timerFire t) s = s := by
        show (if t ∈ s.pendingTimers then _ else _) = s
        rw [if_neg hmem]
      rw [heq] at hchange
      exact absurd rfl hchange

theorem c8_witness :
    (applyEvent demoSlides noAudio (Event.key "ArrowRight")
        (initState demoSlides noAudio)).currentSlide
      ≠ (initState demoSlides noAudio).currentSlide ∧
    (applyEvent demoSlides noAudio (Event.key "ArrowRight")
        (initState demoSlides noAudio)).audioSrc
      = audioPath (slideAt demoSlides
          (applyEvent demoSlides noAudio (Event.key "ArrowRight")
            (initState demoSlides noAudio)).currentSlide) :=
  ⟨by decide,
   (c8_slide_change_loads_audio demoSlides noAudio (Event.key "ArrowRight")
      (initState demoSlides noAudio) (by decide)).1⟩

/-- Navigate (not playing) to the last demo slide, then start playback
there: its audio fails, yet no fallback timer is armed (the arming branch is
guarded by `currentSlide < slides.length - 1`). -/
def lastSlidePlaying : PlayerState :=
  applyEvent demoSlides noAudio (Event.key " ")
    (applyEvent demoSlides noAudio (Event.key "ArrowRight")
      (applyEvent demoSlides noAudio (Event.key "ArrowRight")
        (initState demoSlides noAudio)))

/-- C5 counterexample: playback has just started at the last slide, its
audio is unavailable, and still no duration timer was substituted — so "the
player substitutes a timer of exactly slide.duration seconds" does not hold
for every audio failure. -/
theorem c5_counterexample :
    Reachable demoSlides noAudio lastSlidePlaying ∧
    lastSlidePlaying.isPlaying = true ∧
    lastSlidePlaying.currentSlide = demoSlides.length - 1 ∧
    noAudio lastSlidePlaying.currentSlide = false ∧
    lastSlidePlaying.pendingTimers = [] :=
  ⟨Reachable.step (Reachable.step (Reachable.step Reachable.init rfl) rfl) rfl,
   by decide, by decide, by decide, by decide⟩

/-- C5 (amended): when playback is on and the current slide's audio is
unavailable, the play effect arms exactly one timer — slide index captured,
delay `duration * 1000` ms — when the slide is non-final, and arms nothing
at the last slide; nothing else in the state changes (the failure is silent
and non-fatal).  A pending timer, when it fires, performs
`setCurrentSlide(currentSlide + 1)` for its captured index: `next()` from
the slide it was armed on. -/
theorem c5_timer_fallback (slides : List Slide) (audioOk : Nat → Bool) (s : PlayerState)
    (hp : s.isPlaying = true) (hf : audioOk s.currentSlide = false) :
    (s.currentSlide < slides.length - 1 →
      playPauseEffect slides audioOk s
        = { s with pendingTimers := s.pendingTimers ++
            [{ slideIdx := s.currentSlide
             , delayMs := (slideAt slides s.currentSlide).duration * 1000 }] }) ∧
    (¬ s.currentSlide < slides.length - 1 → playPauseEffect slides audioOk s = s) ∧
    (∀ (u : PlayerState) (t : Timer), t ∈ u.pendingTimers →
      (applyEvent slides audioOk (Event.timerFire t) u).currentSlide = t.slideIdx + 1) := by
  refine ⟨?_, ?_, ?_⟩
  · intro hlt
    simp [playPauseEffect, hp, hf, hlt]
  · intro hnlt
    simp [playPauseEffect, hp, hf, hnlt]
  · intro u t hmem
    have heq : applyEvent slides audioOk (Event.timerFire t) u
        = runEffects slides audioOk u
            { u with pendingTimers := removeFirst u.pendingTimers t
                   , currentSlide := t.slideIdx + 1 } := by
      show (if t ∈ u.pendingTimers then _ else _) = _
      rw [if_pos hmem]
    rw [heq, runEffects_currentSlide]

/-- A state with one pending fallback timer for slide 0. -/
def sTimerPending : PlayerState :=
  { mountState with isPlaying := true, pendingTimers := [⟨0, 5000⟩] }

theorem c5_witness :
    playPauseEffect demoSlides noAudio sPlay0
      = { sPlay0 with pendingTimers := [{ slideIdx := 0, delayMs := 5000 }] } ∧
    (applyEvent demoSlides noAudio (Event.timerFire ⟨0, 5000⟩) sTimerPending).currentSlide
      = 1 :=
  ⟨(c5_timer_fallback demoSlides noAudio sPlay0 rfl rfl).1 (by decide),
   (c5_timer_fallback demoSlides noAudio sPlay0 rfl rfl).2.2 sTimerPending ⟨0, 5000⟩
     (by decide)⟩

/-- Start playback at slide 0 of the no-audio demo deck: the play effect
arms the slide-0 fallback timer. -/
def playFromStart : PlayerState :=
  applyEvent demoSlides noAudio (Event.key " ") (initState demoSlides noAudio)

/-- While playing, navigate to slide 1 (arming its fallback timer) and back
to slide 0: the slide-1 timer is still pending — nothing cancelled it. -/
def staleTimerState : PlayerState :=
  applyEvent demoSlides noAudio (Event.key "ArrowLeft")
    (applyEvent demoSlides noAudio (Event.key "ArrowRight") playFromStart)

/-- C2 at its failing input: in the reachable state `staleTimerState` the
user is on slide 0, yet the fallback timer armed for slide 1 — a slide the
user has already left — is still pending (its `clearTimeout` cleanup was
returned into `play().catch`, so no navigation cancels it), and its firing
jumps `currentSlide` from 0 straight to 2, skipping slide 1. -/
theorem c2_stale_timer_skips_slide :
    Reachable demoSlides noAudio staleTimerState ∧
    staleTimerState.currentSlide = 0 ∧
    enabled (Event.timerFire ⟨1, 5000⟩) staleTimerState = true ∧
    (applyEvent demoSlides noAudio (Event.timerFire ⟨1, 5000⟩)
        staleTimerState).currentSlide = 2 :=
  ⟨Reachable.step (Reachable.step (Reachable.step Reachable.init rfl) rfl) rfl,
   by decide, by decide, by decide⟩

/-- The spec's scenario run to the end: play the no-audio three-slide deck,
letting the slide-0 and slide-1 fallback timers fire. -/
def timerRunEnd : PlayerState :=
  applyEvent demoSlides noAudio (Event.timerFire ⟨1, 5000⟩)
    (applyEvent demoSlides noAudio (Event.timerFire ⟨0, 5000⟩) playFromStart)

/-- C3 at its failing input: after the duration-fallback run reaches the
last slide, `isPlaying` is still `true` and stays so — no timer is pending,
no `'ended'` event can fire (no audio ever played), and no timer event is
enabled — because the timer path has no `setIsPlaying(false)` branch; only
the audio-ended handler has one. -/
theorem c3_stuck_playing_at_last_slide :
    Reachable demoSlides noAudio timerRunEnd ∧
    timerRunEnd.currentSlide = demoSlides.length - 1 ∧
    timerRunEnd.isPlaying = true ∧
    timerRunEnd.pendingTimers = [] ∧
    enabled Event.audioEnded timerRunEnd = false ∧
    (∀ t : Timer, enabled (Event.timerFire t) timerRunEnd = false) :=
  ⟨Reachable.step (Reachable.step (Reachable.step Reachable.init rfl) (by decide))
      (by decide),
   by decide, by decide, by decide, by decide,
   fun t => by
     have h : timerRunEnd.pendingTimers = [] := by decide
     simp [enabled, h]⟩
